import Mathlib

/-
  Verification of the LemLib/units dimensional-analysis library.

  Shallow embedding of src/include/units/units.hpp, Angle.hpp and
  Temperature.hpp: the compile-time exponent vector (8 std::ratio slots)
  becomes a structure of 8 rationals, a Quantity becomes a runtime-tagged
  pair of an exponent vector and a real magnitude (doubles are modelled as
  exact reals), and the LookupName registry becomes a finite association
  list from exponent vectors to unit names.
-/

/-- Exponent vector: one rational exponent per base dimension, in the fixed
order mass, length, time, current, angle, temperature, luminosity, moles
(mirrors the template parameters of class Quantity in units.hpp). -/
structure Dims where
  mass : ℚ
  length : ℚ
  time : ℚ
  current : ℚ
  angle : ℚ
  temperature : ℚ
  luminosity : ℚ
  moles : ℚ
deriving DecidableEq, Repr

/-- Elementwise rational sum of exponent vectors (ratio_add in Multiplied). -/
def Dims.add (a b : Dims) : Dims :=
  ⟨a.mass + b.mass, a.length + b.length, a.time + b.time, a.current + b.current,
   a.angle + b.angle, a.temperature + b.temperature, a.luminosity + b.luminosity,
   a.moles + b.moles⟩

/-- Elementwise rational difference of exponent vectors (ratio_subtract in Divided). -/
def Dims.sub (a b : Dims) : Dims :=
  ⟨a.mass - b.mass, a.length - b.length, a.time - b.time, a.current - b.current,
   a.angle - b.angle, a.temperature - b.temperature, a.luminosity - b.luminosity,
   a.moles - b.moles⟩

/-- Elementwise multiplication of each exponent by a rational (ratio_multiply
in Exponentiated). -/
def Dims.exp (a : Dims) (r : ℚ) : Dims :=
  ⟨a.mass * r, a.length * r, a.time * r, a.current * r,
   a.angle * r, a.temperature * r, a.luminosity * r, a.moles * r⟩

/-- Elementwise division of each exponent by a rational (ratio_divide in Rooted). -/
def Dims.root (a : Dims) (r : ℚ) : Dims :=
  ⟨a.mass / r, a.length / r, a.time / r, a.current / r,
   a.angle / r, a.temperature / r, a.luminosity / r, a.moles / r⟩

/-- Runtime model of a Quantity: the exponent vector it is tagged with at the
type level, together with the single double field `value` (internal() returns
it verbatim).  Doubles are modelled as exact reals. -/
structure Quantity where
  dims : Dims
  internal : ℝ

/-- Binary operator+ of two isomorphic quantities: result is the LEFT operand
type, value is the sum of internals (units.hpp line 283). -/
noncomputable def qadd (lhs rhs : Quantity) : Quantity :=
  ⟨lhs.dims, lhs.internal + rhs.internal⟩

/-- Binary operator- of two isomorphic quantities: result is the LEFT operand
type, value is the difference of internals (units.hpp line 296). -/
noncomputable def qsub (lhs rhs : Quantity) : Quantity :=
  ⟨lhs.dims, lhs.internal - rhs.internal⟩

/-- operator*(Quantity, double) and operator*(double, Quantity): scales the
magnitude, keeps the dimension (units.hpp lines 309 and 318). -/
noncomputable def qscale (multiple : ℝ) (quantity : Quantity) : Quantity :=
  ⟨quantity.dims, quantity.internal * multiple⟩

/-- operator/(Quantity, double): divides the magnitude by a scalar, keeps the
dimension (units.hpp line 327). -/
noncomputable def qscaleDiv (quantity : Quantity) (divisor : ℝ) : Quantity :=
  ⟨quantity.dims, quantity.internal / divisor⟩

/-- operator*(Quantity, Quantity): exponent vectors add elementwise, internal
values multiply (units.hpp line 336). -/
noncomputable def qmul (lhs rhs : Quantity) : Quantity :=
  ⟨Dims.add lhs.dims rhs.dims, lhs.internal * rhs.internal⟩

/-- operator/(Quantity, Quantity): exponent vectors subtract elementwise,
internal values divide (units.hpp line 347). -/
noncomputable def qdiv (lhs rhs : Quantity) : Quantity :=
  ⟨Dims.sub lhs.dims rhs.dims, lhs.internal / rhs.internal⟩

/-- Quantity::convert: value divided by the internal value of the reference
quantity (units.hpp line 87). -/
noncomputable def convert (quantity reference : Quantity) : ℝ :=
  quantity.internal / reference.internal

/-- The result type surfaced by the dimensional algebra: either a registered
named unit type for an exponent vector, or the raw unnamed Quantity
instantiation of that vector. -/
inductive ResolvedType where
  | named (n : String) (d : Dims) : ResolvedType
  | raw (d : Dims) : ResolvedType
deriving DecidableEq, Repr

/-- Exponent vector carried by a resolved type. -/
def ResolvedType.dims : ResolvedType → Dims
  | .named _ d => d
  | .raw d => d

/-- The LookupName registry: one entry per NEW_UNIT declaration (plus the
hand-written specializations for Angle and Temperature), mapping the declared
exponent vector to the declared type name.  Transcribed from units.hpp lines
521-603, Angle.hpp lines 19-22 and 77-87, Temperature.hpp lines 19-22. -/
def registry : List (Dims × String) :=
  [ (⟨0, 0, 0, 0, 0, 0, 0, 0⟩, "Number"),
    (⟨1, 0, 0, 0, 0, 0, 0, 0⟩, "Mass"),
    (⟨0, 0, 1, 0, 0, 0, 0, 0⟩, "Time"),
    (⟨0, 1, 0, 0, 0, 0, 0, 0⟩, "Length"),
    (⟨0, 2, 0, 0, 0, 0, 0, 0⟩, "Area"),
    (⟨0, 1, -1, 0, 0, 0, 0, 0⟩, "LinearVelocity"),
    (⟨0, 1, -2, 0, 0, 0, 0, 0⟩, "LinearAcceleration"),
    (⟨0, 1, -3, 0, 0, 0, 0, 0⟩, "LinearJerk"),
    (⟨0, -1, 0, 0, 0, 0, 0, 0⟩, "Curvature"),
    (⟨1, 2, 0, 0, 0, 0, 0, 0⟩, "Inertia"),
    (⟨1, 1, -2, 0, 0, 0, 0, 0⟩, "Force"),
    (⟨1, 2, -2, 0, 0, 0, 0, 0⟩, "Torque"),
    (⟨1, 2, -3, 0, 0, 0, 0, 0⟩, "Power"),
    (⟨0, 0, 0, 1, 0, 0, 0, 0⟩, "Current"),
    (⟨0, 0, 1, 1, 0, 0, 0, 0⟩, "Charge"),
    (⟨1, 2, -3, -1, 0, 0, 0, 0⟩, "Voltage"),
    (⟨1, 2, -3, -2, 0, 0, 0, 0⟩, "Resistance"),
    (⟨-1, -2, 3, 2, 0, 0, 0, 0⟩, "Conductance"),
    (⟨0, 0, 0, 0, 0, 0, 1, 0⟩, "Luminosity"),
    (⟨0, 0, 0, 0, 0, 0, 0, 1⟩, "Moles"),
    (⟨0, 0, 0, 0, 1, 0, 0, 0⟩, "Angle"),
    (⟨0, 0, -1, 0, 1, 0, 0, 0⟩, "AngularVelocity"),
    (⟨0, 0, -2, 0, 1, 0, 0, 0⟩, "AngularAcceleration"),
    (⟨0, 0, -3, 0, 1, 0, 0, 0⟩, "AngularJerk"),
    (⟨0, 0, 0, 0, 0, 1, 0, 0⟩, "Temperature") ]

/-- Look up the registered name for an exponent vector, if any
(the LookupName template specializations). -/
def lookupName (d : Dims) : Option String :=
  (registry.find? (fun e => decide (e.1 = d))).map Prod.snd

/-- The exponent vector each named unit type was declared with: the eight
integer arguments of its NEW_UNIT invocation (or the hand-written Quantity
base class for Angle and Temperature).  Transcribed independently of the
registry, from the class declarations themselves. -/
def unitDims : String → Option Dims
  | "Number" => some ⟨0, 0, 0, 0, 0, 0, 0, 0⟩
  | "Mass" => some ⟨1, 0, 0, 0, 0, 0, 0, 0⟩
  | "Time" => some ⟨0, 0, 1, 0, 0, 0, 0, 0⟩
  | "Length" => some ⟨0, 1, 0, 0, 0, 0, 0, 0⟩
  | "Area" => some ⟨0, 2, 0, 0, 0, 0, 0, 0⟩
  | "LinearVelocity" => some ⟨0, 1, -1, 0, 0, 0, 0, 0⟩
  | "LinearAcceleration" => some ⟨0, 1, -2, 0, 0, 0, 0, 0⟩
  | "LinearJerk" => some ⟨0, 1, -3, 0, 0, 0, 0, 0⟩
  | "Curvature" => some ⟨0, -1, 0, 0, 0, 0, 0, 0⟩
  | "Inertia" => some ⟨1, 2, 0, 0, 0, 0, 0, 0⟩
  | "Force" => some ⟨1, 1, -2, 0, 0, 0, 0, 0⟩
  | "Torque" => some ⟨1, 2, -2, 0, 0, 0, 0, 0⟩
  | "Power" => some ⟨1, 2, -3, 0, 0, 0, 0, 0⟩
  | "Current" => some ⟨0, 0, 0, 1, 0, 0, 0, 0⟩
  | "Charge" => some ⟨0, 0, 1, 1, 0, 0, 0, 0⟩
  | "Voltage" => some ⟨1, 2, -3, -1, 0, 0, 0, 0⟩
  | "Resistance" => some ⟨1, 2, -3, -2, 0, 0, 0, 0⟩
  | "Conductance" => some ⟨-1, -2, 3, 2, 0, 0, 0, 0⟩
  | "Luminosity" => some ⟨0, 0, 0, 0, 0, 0, 1, 0⟩
  | "Moles" => some ⟨0, 0, 0, 0, 0, 0, 0, 1⟩
  | "Angle" => some ⟨0, 0, 0, 0, 1, 0, 0, 0⟩
  | "AngularVelocity" => some ⟨0, 0, -1, 0, 1, 0, 0, 0⟩
  | "AngularAcceleration" => some ⟨0, 0, -2, 0, 1, 0, 0, 0⟩
  | "AngularJerk" => some ⟨0, 0, -3, 0, 1, 0, 0, 0⟩
  | "Temperature" => some ⟨0, 0, 0, 0, 0, 1, 0, 0⟩
  | _ => none

/-- Named<Q>: the registered named type for an exponent vector when one
exists, otherwise the vector itself (the unspecialized LookupName template,
units.hpp lines 135-142). -/
def NamedOf (d : Dims) : ResolvedType :=
  match lookupName d with
  | some n => ResolvedType.named n d
  | none => ResolvedType.raw d

/-- Multiplied<Q1,Q2>: name resolution applied to the elementwise sum of the
two exponent vectors (units.hpp lines 190-194). -/
def Multiplied (d1 d2 : Dims) : ResolvedType := NamedOf (Dims.add d1 d2)

/-- Divided<Q1,Q2>: name resolution applied to the elementwise difference of
the two exponent vectors (units.hpp lines 203-209). -/
def Divided (d1 d2 : Dims) : ResolvedType := NamedOf (Dims.sub d1 d2)

/-- Exponent vector of Length. -/
def lengthD : Dims := ⟨0, 1, 0, 0, 0, 0, 0, 0⟩

/-- Exponent vector of Time. -/
def timeD : Dims := ⟨0, 0, 1, 0, 0, 0, 0, 0⟩

/-- Exponent vector of Angle. -/
def angleD : Dims := ⟨0, 0, 0, 0, 1, 0, 0, 0⟩

/-- Exponent vector of Temperature. -/
def temperatureD : Dims := ⟨0, 0, 0, 0, 0, 1, 0, 0⟩

/-- C1: binary * and / between two Quantities of possibly different dimensions
are always well-formed; the result exponent vector is the elementwise rational
sum (for *) or difference (for /) of the operand vectors, the result magnitude
is the product (for *) or quotient (for /) of the internal magnitudes, and the
result type is the one the name-resolution registry holds for that vector,
falling back to the raw unnamed Quantity instantiation when no name is
registered (illustrated on both branches: Length * Length resolves to the
registered Area, Length / Time to the registered LinearVelocity, while
Length * Time has no registered name and stays raw; every registry entry maps
to a name whose declared exponent vector is exactly the lookup key). -/
theorem c1_mul_div_name_resolution :
    (∀ a b : Quantity,
      (qmul a b).dims = Dims.add a.dims b.dims ∧
      (qmul a b).internal = a.internal * b.internal ∧
      (qdiv a b).dims = Dims.sub a.dims b.dims ∧
      (qdiv a b).internal = a.internal / b.internal) ∧
    (∀ d : Dims, NamedOf d = (lookupName d).elim (ResolvedType.raw d)
      (fun n => ResolvedType.named n d)) ∧
    (∀ d : Dims, (NamedOf d).dims = d) ∧
    Multiplied lengthD lengthD = ResolvedType.named "Area" (Dims.add lengthD lengthD) ∧
    Divided lengthD timeD = ResolvedType.named "LinearVelocity" (Dims.sub lengthD timeD) ∧
    Multiplied lengthD timeD = ResolvedType.raw (Dims.add lengthD timeD) ∧
    registry.all (fun e => decide (unitDims e.2 = some e.1)) = true := by
  have harea : Dims.add lengthD lengthD = (⟨0, 2, 0, 0, 0, 0, 0, 0⟩ : Dims) := by
    norm_num [Dims.add, lengthD]
  have hlv : Dims.sub lengthD timeD = (⟨0, 1, -1, 0, 0, 0, 0, 0⟩ : Dims) := by
    norm_num [Dims.sub, lengthD, timeD]
  have hlt : Dims.add lengthD timeD = (⟨0, 1, 1, 0, 0, 0, 0, 0⟩ : Dims) := by
    norm_num [Dims.add, lengthD, timeD]
  refine ⟨fun a b => ⟨rfl, rfl, rfl, rfl⟩, fun d => ?_, fun d => ?_, ?_, ?_, ?_, by decide⟩
  · unfold NamedOf
    cases lookupName d <;> rfl
  · unfold NamedOf
    cases lookupName d <;> rfl
  · show NamedOf (Dims.add lengthD lengthD) = ResolvedType.named "Area" (Dims.add lengthD lengthD)
    rw [harea]
    decide
  · show NamedOf (Dims.sub lengthD timeD) =
      ResolvedType.named "LinearVelocity" (Dims.sub lengthD timeD)
    rw [hlv]
    decide
  · show NamedOf (Dims.add lengthD timeD) = ResolvedType.raw (Dims.add lengthD timeD)
    rw [hlt]
    decide

/-- The canonical Length constant m = Length(1.0) (NEW_UNIT(Length, m, ...)). -/
noncomputable def meterQ : Quantity := ⟨lengthD, 1⟩

/-- The scaled sibling cm = m / 1E2 (NEW_METRIC_PREFIXES(Length, m)). -/
noncomputable def cmQ : Quantity := qscaleDiv meterQ 100

/-- The scaled sibling in = cm * 2.54 (NEW_UNIT_LITERAL(Length, in, cm * 2.54)). -/
noncomputable def inchQ : Quantity := qscale 2.54 cmQ

/-- The scaled sibling ft = in * 12 (NEW_UNIT_LITERAL(Length, ft, in * 12)). -/
noncomputable def ftQ : Quantity := qscale 12 inchQ

/-- The Angle constant deg = Angle(M_PI / 180) (Angle.hpp line 74). -/
noncomputable def degQ : Quantity := ⟨angleD, Real.pi / 180⟩

/-- The Angle constant rot = Angle(M_TWOPI) (Angle.hpp line 75). -/
noncomputable def rotQ : Quantity := ⟨angleD, 2 * Real.pi⟩

/-- The generic from_suffix helper of NEW_UNIT_LITERAL: value * multiple
(units.hpp line 508). -/
noncomputable def from_lit (multiple : Quantity) (value : ℝ) : Quantity :=
  qscale value multiple

/-- The generic to_suffix helper of NEW_UNIT_LITERAL: quantity.convert(multiple)
(units.hpp line 509). -/
noncomputable def to_lit (multiple : Quantity) (quantity : Quantity) : ℝ :=
  convert quantity multiple

/-- The _fahrenheit literal operators: both the long double and the unsigned
long long overloads store (value - 32) * (5.0 / 9.0) + 273.5
(Temperature.hpp lines 41-47 — note the 273.5 offset). -/
noncomputable def fahrenheitLit (value : ℝ) : Quantity :=
  ⟨temperatureD, (value - 32) * (5 / 9) + 273.5⟩

/-- The compass-restricted angle helper class: only its stored double matters
at runtime (Angle.hpp lines 29-58). -/
structure CAngle where
  internal : ℝ

/-- CAngle::operator Angle: the implicit conversion Angle(M_PI_2 - value)
(Angle.hpp line 44). -/
noncomputable def CAngle.toAngle (c : CAngle) : Quantity :=
  ⟨angleD, Real.pi / 2 - c.internal⟩

/-- CAngle::operator-: unary negation of the stored value (Angle.hpp line 46). -/
noncomputable def CAngle.negate (c : CAngle) : CAngle := ⟨-c.internal⟩

/-- CAngle::operator+: unary plus, returns the stored value unchanged
(Angle.hpp line 48). -/
noncomputable def CAngle.uplus (c : CAngle) : CAngle := ⟨c.internal⟩

/-- The _cDeg literal: CAngle(value * deg.internal()) (Angle.hpp lines 110-114). -/
noncomputable def cDegLit (value : ℝ) : CAngle := ⟨value * degQ.internal⟩

/-- Truncation toward zero, the rounding used by std::fmod. -/
noncomputable def rtrunc (x : ℝ) : ℤ := if 0 ≤ x then ⌊x⌋ else ⌈x⌉

/-- std::fmod on reals: x - trunc(x / y) * y, so the result carries the sign
of x and has magnitude below the magnitude of y. -/
noncomputable def fmod (x y : ℝ) : ℝ := x - y * (rtrunc (x / y) : ℝ)

namespace units

/-- units::mod: the fmod of the two internal values, tagged with the left
operand type (units.hpp lines 718-722). -/
noncomputable def mod (lhs rhs : Quantity) : Quantity :=
  ⟨lhs.dims, fmod lhs.internal rhs.internal⟩

/-- units::sgn: -1 when the internal value is strictly negative, otherwise 1
(units.hpp line 741). -/
noncomputable def sgn (lhs : Quantity) : ℤ := if lhs.internal < 0 then -1 else 1

/-- units::pow with an integer exponent: exponents scale by R, value is raised
to the R-th power (units.hpp lines 647-649). -/
noncomputable def pow (r : ℤ) (lhs : Quantity) : Quantity :=
  ⟨Dims.exp lhs.dims (r : ℚ), lhs.internal ^ r⟩

/-- units::root with an integer degree: exponents divide by R, value is raised
to the real power 1.0 / R by std::pow (units.hpp lines 678-680). -/
noncomputable def root (r : ℤ) (lhs : Quantity) : Quantity :=
  ⟨Dims.root lhs.dims (r : ℚ), lhs.internal ^ (1 / (r : ℝ))⟩

/-- units::constrainAngle360: mod(in, rot) (Angle.hpp line 140). -/
noncomputable def constrainAngle360 (a : Quantity) : Quantity := mod a rotQ

/-- units::constrainAngle180: shift by a half rotation, mod by a full rotation,
then shift back on the side selected by the sign (Angle.hpp lines 142-145). -/
noncomputable def constrainAngle180 (a : Quantity) : Quantity :=
  let t := mod (qadd a (qscale 180 degQ)) rotQ
  if t.internal < 0 then qadd t (qscale 180 degQ) else qsub t (qscale 180 degQ)

/-- units::from_kelvin (Temperature.hpp line 51). -/
noncomputable def from_kelvin (value : ℝ) : Quantity := ⟨temperatureD, value⟩

/-- units::to_kelvin (Temperature.hpp line 53). -/
noncomputable def to_kelvin (quantity : Quantity) : ℝ := quantity.internal

/-- units::from_celsius (Temperature.hpp line 55). -/
noncomputable def from_celsius (value : ℝ) : Quantity := ⟨temperatureD, value + 273.15⟩

/-- units::to_celsius (Temperature.hpp line 57). -/
noncomputable def to_celsius (quantity : Quantity) : ℝ := quantity.internal - 273.15

/-- units::from_fahrenheit: (value - 32) * (5.0 / 9.0) + 273.15
(Temperature.hpp line 59). -/
noncomputable def from_fahrenheit (value : ℝ) : Quantity :=
  ⟨temperatureD, (value - 32) * (5 / 9) + 273.15⟩

/-- units::to_fahrenheit: (internal - 273.15) * (9.0 / 5.0) + 32
(Temperature.hpp lines 61-63). -/
noncomputable def to_fahrenheit (quantity : Quantity) : ℝ :=
  (quantity.internal - 273.15) * (9 / 5) + 32

end units

/-- from_cRad: 90 * deg - Angle(value) (Angle.hpp line 169). -/
noncomputable def from_cRad (value : ℝ) : Quantity :=
  qsub (qscale 90 degQ) ⟨angleD, value⟩

/-- to_cRad: quantity.internal(), with no compass complement
(Angle.hpp line 173). -/
noncomputable def to_cRad (quantity : Quantity) : ℝ := quantity.internal

/-- from_cDeg: (90 - value) * deg (Angle.hpp line 175). -/
noncomputable def from_cDeg (value : ℝ) : Quantity := qscale (90 - value) degQ

/-- to_cDeg: (90 * deg - quantity).convert(deg) (Angle.hpp line 179). -/
noncomputable def to_cDeg (quantity : Quantity) : ℝ :=
  convert (qsub (qscale 90 degQ) quantity) degQ

/-- from_cRot: (90 - value) * deg — scales by deg although the unit is a
rotation (Angle.hpp line 181). -/
noncomputable def from_cRot (value : ℝ) : Quantity := qscale (90 - value) degQ

/-- to_cRot: (90 * deg - quantity).convert(rot) (Angle.hpp line 185). -/
noncomputable def to_cRot (quantity : Quantity) : ℝ :=
  convert (qsub (qscale 90 degQ) quantity) rotQ

/-- C2: for isomorphic operands, operator+ and operator- keep the left operand
type and add or subtract the internal magnitudes; in the concrete scenario,
Length x = 2_m plus Length y = 3_ft (3 * ft = 3 * 0.3048 m) has internal value
exactly 2.9144 in the real-valued model of doubles. -/
theorem c2_add_sub_isomorphic (a b : Quantity) (h : a.dims = b.dims) :
    (qadd a b).internal = a.internal + b.internal ∧
    (qsub a b).internal = a.internal - b.internal ∧
    (qadd a b).dims = a.dims ∧
    (qsub a b).dims = a.dims ∧
    (qadd ⟨lengthD, 2⟩ (qscale 3 ftQ)).internal = 2.9144 := by
  refine ⟨rfl, rfl, rfl, rfl, ?_⟩
  show (2 : ℝ) + ftQ.internal * 3 = 2.9144
  norm_num [ftQ, inchQ, cmQ, meterQ, qscale, qscaleDiv]

/-- C2 witness: the addition law applied to the concrete scenario operands,
whose exponent vectors agree definitionally. -/
theorem c2_add_sub_isomorphic_witness :
    (qadd ⟨lengthD, 2⟩ (qscale 3 ftQ)).internal =
      (⟨lengthD, 2⟩ : Quantity).internal + (qscale 3 ftQ).internal :=
  (c2_add_sub_isomorphic ⟨lengthD, 2⟩ (qscale 3 ftQ) rfl).1

/-- C5: the Fahrenheit literal operators store (F - 32) * 5 / 9 + 273.5, which
at F = 32 yields 273.5 kelvin, while the mathematically correct formula of the
claim (the one from_fahrenheit implements) yields 273.15 kelvin there; the two
offsets differ, so the literal path contradicts the claim even though
to_fahrenheit does invert from_fahrenheit. -/
theorem c5_fahrenheit_literal_offset_bug :
    (fahrenheitLit 32).internal = 273.5 ∧
    ((32 - 32) * (5 / 9) + 273.15 : ℝ) = 273.15 ∧
    (273.5 : ℝ) ≠ 273.15 ∧
    (units.from_fahrenheit 32).internal = 273.15 ∧
    (∀ v : ℝ, units.to_fahrenheit (units.from_fahrenheit v) = v) := by
  refine ⟨by norm_num [fahrenheitLit], by norm_num, by norm_num,
    by norm_num [units.from_fahrenheit], fun v => ?_⟩
  show ((v - 32) * (5 / 9) + 273.15 - 273.15) * (9 / 5) + 32 = v
  ring

/-- C7: a compass angle built by the compass-degree literal converts to the
standard Angle (90 - v) * deg; concretely 15_cDeg equals 75 standard degrees
and -(+15_cDeg) equals 105 standard degrees. -/
theorem c7_compass_standard_identity :
    (∀ v : ℝ, (CAngle.toAngle (cDegLit v)).internal = (90 - v) * degQ.internal) ∧
    (CAngle.toAngle (cDegLit 15)).internal = (qscale 75 degQ).internal ∧
    (CAngle.toAngle (CAngle.negate (CAngle.uplus (cDegLit 15)))).internal =
      (qscale 105 degQ).internal := by
  refine ⟨fun v => ?_, ?_, ?_⟩
  · show Real.pi / 2 - v * (Real.pi / 180) = (90 - v) * (Real.pi / 180)
    ring
  · show Real.pi / 2 - 15 * (Real.pi / 180) = Real.pi / 180 * 75
    ring
  · show Real.pi / 2 - -(15 * (Real.pi / 180)) = Real.pi / 180 * 105
    ring

/-- C10: units::sgn returns 1 whenever the internal value is not strictly
negative — in particular on a zero-valued quantity — and returns -1 exactly
when the internal value is strictly below zero. -/
theorem c10_sgn_zero_positive (q : Quantity) :
    (¬ q.internal < 0 → units.sgn q = 1) ∧
    (q.internal < 0 → units.sgn q = -1) ∧
    units.sgn ⟨q.dims, 0⟩ = 1 := by
  unfold units.sgn
  refine ⟨fun h => if_neg h, fun h => if_pos h, ?_⟩
  norm_num

/-- C10 witness: sgn of the zero-valued dimensionless quantity is 1. -/
theorem c10_sgn_zero_positive_witness : units.sgn ⟨lengthD, 0⟩ = 1 :=
  (c10_sgn_zero_positive ⟨lengthD, 0⟩).1 (by norm_num)

/-- Bounds of fmod for a nonnegative dividend and positive divisor: the result
lies in the interval from 0 inclusive to the divisor exclusive. -/
theorem fmod_range_nonneg {x y : ℝ} (hy : 0 < y) (hx : 0 ≤ x) :
    0 ≤ fmod x y ∧ fmod x y < y := by
  have hne : y ≠ 0 := ne_of_gt hy
  have hq : 0 ≤ x / y := div_nonneg hx hy.le
  have hcancel : x / y * y = x := div_mul_cancel₀ x hne
  have h1 : ((⌊x / y⌋ : ℤ) : ℝ) ≤ x / y := Int.floor_le _
  have h2 : x / y < (⌊x / y⌋ : ℝ) + 1 := Int.lt_floor_add_one _
  unfold fmod rtrunc
  rw [if_pos hq]
  constructor
  · nlinarith [mul_le_mul_of_nonneg_right h1 hy.le]
  · nlinarith [mul_lt_mul_of_pos_right h2 hy]

/-- Bounds of fmod for a negative dividend and positive divisor: the result
lies in the interval from the negated divisor exclusive to 0 inclusive. -/
theorem fmod_range_neg {x y : ℝ} (hy : 0 < y) (hx : x < 0) :
    -y < fmod x y ∧ fmod x y ≤ 0 := by
  have hne : y ≠ 0 := ne_of_gt hy
  have hq : x / y < 0 := div_neg_of_neg_of_pos hx hy
  have hcancel : x / y * y = x := div_mul_cancel₀ x hne
  have h1 : x / y ≤ ((⌈x / y⌉ : ℤ) : ℝ) := Int.le_ceil _
  have h2 : ((⌈x / y⌉ : ℤ) : ℝ) < x / y + 1 := Int.ceil_lt_add_one _
  unfold fmod rtrunc
  rw [if_neg (not_le.mpr hq)]
  constructor
  · nlinarith [mul_lt_mul_of_pos_right h2 hy]
  · nlinarith [mul_le_mul_of_nonneg_right h1 hy.le]

/-- Two-sided bound of fmod against a positive divisor, for any dividend. -/
theorem fmod_abs_lt {x y : ℝ} (hy : 0 < y) : -y < fmod x y ∧ fmod x y < y := by
  rcases le_or_lt 0 x with hx | hx
  · obtain ⟨h1, h2⟩ := fmod_range_nonneg hy hx
    exact ⟨lt_of_lt_of_le (neg_neg_of_pos hy) h1, h2⟩
  · obtain ⟨h1, h2⟩ := fmod_range_neg hy hx
    exact ⟨h1, lt_of_le_of_lt h2 hy⟩

/-- C4 counterexample: the code normalizes -15 degrees to -15 degrees, not to
345 degrees, and the result is negative, outside the claimed range that starts
at 0 inclusive. -/
theorem c4_counterexample_neg_input :
    (units.constrainAngle360 (qscale (-15) degQ)).internal = -15 * (Real.pi / 180) ∧
    (units.constrainAngle360 (qscale (-15) degQ)).internal ≠ 345 * (Real.pi / 180) ∧
    ¬ 0 ≤ (units.constrainAngle360 (qscale (-15) degQ)).internal := by
  have h2 : (2 : ℝ) * Real.pi ≠ 0 := by positivity
  have hr : Real.pi / 180 * (-15) / (2 * Real.pi) = -(1 / 24) := by
    rw [div_eq_iff h2]
    ring
  have hrt : rtrunc (Real.pi / 180 * (-15) / (2 * Real.pi)) = 0 := by
    rw [hr]
    unfold rtrunc
    rw [if_neg (by norm_num)]
    rw [Int.ceil_eq_zero_iff]
    constructor <;> norm_num
  have hv : (units.constrainAngle360 (qscale (-15) degQ)).internal =
      -15 * (Real.pi / 180) := by
    show fmod (Real.pi / 180 * (-15)) (2 * Real.pi) = -15 * (Real.pi / 180)
    unfold fmod
    rw [hrt]
    push_cast
    ring
  refine ⟨hv, ?_, ?_⟩
  · rw [hv]
    intro h
    have := Real.pi_pos
    linarith
  · rw [hv, not_le]
    have := Real.pi_pos
    linarith

/-- C4 amended: constrainAngle360 is mod(in, rot), i.e. fmod against one full
rotation, so the result is congruent to the input modulo 2 pi and carries the
SIGN of the input: it lies in the claimed range from 0 inclusive to 2 pi
exclusive only for nonnegative inputs, and lies in the range from -2 pi
exclusive to 0 inclusive for negative inputs (so -15 degrees stays -15
degrees); the dimension tag is unchanged. -/
theorem c4_amended_constrain360 (a : Quantity) :
    (units.constrainAngle360 a).dims = a.dims ∧
    (∃ k : ℤ, (units.constrainAngle360 a).internal = a.internal - 2 * Real.pi * k) ∧
    (0 ≤ a.internal → 0 ≤ (units.constrainAngle360 a).internal ∧
      (units.constrainAngle360 a).internal < 2 * Real.pi) ∧
    (a.internal < 0 → -(2 * Real.pi) < (units.constrainAngle360 a).internal ∧
      (units.constrainAngle360 a).internal ≤ 0) := by
  have h2pi : (0 : ℝ) < 2 * Real.pi := by positivity
  refine ⟨rfl, ⟨rtrunc (a.internal / (2 * Real.pi)), rfl⟩, fun hx => ?_, fun hx => ?_⟩
  · exact fmod_range_nonneg h2pi hx
  · exact fmod_range_neg h2pi hx

/-- C4 amended witness: a zero-radian angle is already in range. -/
theorem c4_amended_constrain360_witness :
    0 ≤ (units.constrainAngle360 ⟨angleD, 0⟩).internal ∧
    (units.constrainAngle360 ⟨angleD, 0⟩).internal < 2 * Real.pi :=
  (c4_amended_constrain360 ⟨angleD, 0⟩).2.2.1 le_rfl

/-- C6 counterexample: on the input 180 degrees the 180-normalization returns
exactly -180 degrees (internal value minus pi), so the result is NOT strictly
greater than -180 degrees as the claim states. -/
theorem c6_counterexample_at_180 :
    (units.constrainAngle180 (qscale 180 degQ)).internal = -(180 * (Real.pi / 180)) ∧
    ¬ -(180 * (Real.pi / 180)) < (units.constrainAngle180 (qscale 180 degQ)).internal := by
  have h2 : (2 : ℝ) * Real.pi ≠ 0 := by positivity
  have hu : Real.pi / 180 * 180 + Real.pi / 180 * 180 = 2 * Real.pi := by ring
  have hr : (Real.pi / 180 * 180 + Real.pi / 180 * 180) / (2 * Real.pi) = 1 := by
    rw [hu, div_self h2]
  have hrt : rtrunc ((Real.pi / 180 * 180 + Real.pi / 180 * 180) / (2 * Real.pi)) = 1 := by
    rw [hr]
    unfold rtrunc
    rw [if_pos (by norm_num)]
    norm_num
  have ht : (units.mod (qadd (qscale 180 degQ) (qscale 180 degQ)) rotQ).internal = 0 := by
    show fmod (Real.pi / 180 * 180 + Real.pi / 180 * 180) (2 * Real.pi) = 0
    unfold fmod
    rw [hrt, hu]
    push_cast
    ring
  have hc : ¬ (units.mod (qadd (qscale 180 degQ) (qscale 180 degQ)) rotQ).internal < 0 := by
    rw [ht]
    norm_num
  have heq : units.constrainAngle180 (qscale 180 degQ) =
      qsub (units.mod (qadd (qscale 180 degQ) (qscale 180 degQ)) rotQ) (qscale 180 degQ) := by
    simp only [units.constrainAngle180, if_neg hc]
  have hv : (units.constrainAngle180 (qscale 180 degQ)).internal =
      -(180 * (Real.pi / 180)) := by
    rw [heq]
    show (units.mod (qadd (qscale 180 degQ) (qscale 180 degQ)) rotQ).internal -
      Real.pi / 180 * 180 = -(180 * (Real.pi / 180))
    rw [ht]
    ring
  exact ⟨hv, by rw [hv]; exact lt_irrefl _⟩

/-- C6 amended: constrainAngle180 applies a half-rotation shift before and
after a modulo against a full rotation; the result is congruent to the input
modulo 2 pi and lies in the range from -180 degrees INCLUSIVE to 180 degrees
exclusive (the lower endpoint -pi is attained, at 180 degrees among others);
the dimension tag is unchanged. -/
theorem c6_amended_constrain180 (a : Quantity) :
    (units.constrainAngle180 a).dims = a.dims ∧
    -Real.pi ≤ (units.constrainAngle180 a).internal ∧
    (units.constrainAngle180 a).internal < Real.pi ∧
    ∃ k : ℤ, (units.constrainAngle180 a).internal = a.internal - 2 * Real.pi * k := by
  have h2pi : (0 : ℝ) < 2 * Real.pi := by positivity
  have hm : (units.mod (qadd a (qscale 180 degQ)) rotQ).internal =
      fmod (a.internal + Real.pi / 180 * 180) (2 * Real.pi) := rfl
  have hk : fmod (a.internal + Real.pi / 180 * 180) (2 * Real.pi) =
      (a.internal + Real.pi / 180 * 180) -
        2 * Real.pi * (rtrunc ((a.internal + Real.pi / 180 * 180) / (2 * Real.pi))) := rfl
  obtain ⟨hlow, hhigh⟩ := fmod_abs_lt (x := a.internal + Real.pi / 180 * 180) h2pi
  by_cases hc : (units.mod (qadd a (qscale 180 degQ)) rotQ).internal < 0
  · have heq : units.constrainAngle180 a =
        qadd (units.mod (qadd a (qscale 180 degQ)) rotQ) (qscale 180 degQ) := by
      simp only [units.constrainAngle180, if_pos hc]
    rw [hm] at hc
    refine ⟨by rw [heq]; rfl, ?_, ?_, ?_⟩
    · rw [heq]
      show -Real.pi ≤ fmod (a.internal + Real.pi / 180 * 180) (2 * Real.pi) +
        Real.pi / 180 * 180
      nlinarith
    · rw [heq]
      show fmod (a.internal + Real.pi / 180 * 180) (2 * Real.pi) +
        Real.pi / 180 * 180 < Real.pi
      nlinarith
    · refine ⟨rtrunc ((a.internal + Real.pi / 180 * 180) / (2 * Real.pi)) - 1, ?_⟩
      rw [heq]
      show fmod (a.internal + Real.pi / 180 * 180) (2 * Real.pi) +
        Real.pi / 180 * 180 = a.internal - 2 * Real.pi * _
      rw [hk]
      push_cast
      ring
  · have heq : units.constrainAngle180 a =
        qsub (units.mod (qadd a (qscale 180 degQ)) rotQ) (qscale 180 degQ) := by
      simp only [units.constrainAngle180, if_neg hc]
    rw [hm] at hc
    rw [not_lt] at hc
    refine ⟨by rw [heq]; rfl, ?_, ?_, ?_⟩
    · rw [heq]
      show -Real.pi ≤ fmod (a.internal + Real.pi / 180 * 180) (2 * Real.pi) -
        Real.pi / 180 * 180
      nlinarith
    · rw [heq]
      show fmod (a.internal + Real.pi / 180 * 180) (2 * Real.pi) -
        Real.pi / 180 * 180 < Real.pi
      nlinarith
    · refine ⟨rtrunc ((a.internal + Real.pi / 180 * 180) / (2 * Real.pi)), ?_⟩
      rw [heq]
      show fmod (a.internal + Real.pi / 180 * 180) (2 * Real.pi) -
        Real.pi / 180 * 180 = a.internal - 2 * Real.pi * _
      rw [hk]
      push_cast
      ring

/-- C3: evaluation of the conversion pairs.  The scaled-literal helpers round
trip (shown on kilo-meter: to(from 5) = 5 and from(1) has internal value 1000
times the base constant), the temperature pairs round trip, and to_cDeg
inverts from_cDeg; but to_cRad omits the compass complement so
to_cRad(from_cRad(0)) returns pi/2 instead of 0, and from_cRot scales by deg
instead of rot so to_cRot(from_cRot(1)) returns 1/360 instead of 1. -/
theorem c3_conversion_roundtrip_eval :
    to_cRad (from_cRad 0) = Real.pi / 2 ∧
    Real.pi / 2 ≠ 0 ∧
    to_cRot (from_cRot 1) = 1 / 360 ∧
    (1 / 360 : ℝ) ≠ 1 ∧
    (∀ v : ℝ, to_cDeg (from_cDeg v) = v) ∧
    (∀ v : ℝ, units.to_celsius (units.from_celsius v) = v) ∧
    (∀ v : ℝ, units.to_kelvin (units.from_kelvin v) = v) ∧
    to_lit (qscale 1000 meterQ) (from_lit (qscale 1000 meterQ) 5) = 5 ∧
    (from_lit (qscale 1000 meterQ) 1).internal = 1000 * meterQ.internal := by
  have h2 : (2 : ℝ) * Real.pi ≠ 0 := by positivity
  have hd : Real.pi / 180 ≠ 0 := by positivity
  refine ⟨?_, by positivity, ?_, by norm_num, fun v => ?_, fun v => ?_, fun v => rfl, ?_, ?_⟩
  · show Real.pi / 180 * 90 - 0 = Real.pi / 2
    ring
  · show (Real.pi / 180 * 90 - Real.pi / 180 * (90 - 1)) / (2 * Real.pi) = 1 / 360
    rw [div_eq_div_iff h2 (by norm_num)]
    ring
  · show (Real.pi / 180 * 90 - Real.pi / 180 * (90 - v)) / (Real.pi / 180) = v
    rw [div_eq_iff hd]
    ring
  · show v + 273.15 - 273.15 = v
    ring
  · show 1 * 1000 * 5 / (1 * 1000) = (5 : ℝ)
    norm_num
  · show 1 * 1000 * 1 = 1000 * (1 : ℝ)
    norm_num

/-- C8 counterexample: with b a zero-valued quantity, (a * b) / b has internal
value 0 / 0, which is not numerically equal to a.internal() = 1 (in IEEE
arithmetic it is NaN, which also compares unequal). -/
theorem c8_counterexample_zero_divisor :
    (qdiv (qmul ⟨lengthD, 1⟩ ⟨lengthD, 0⟩) ⟨lengthD, 0⟩).internal = 0 ∧
    (qdiv (qmul ⟨lengthD, 1⟩ ⟨lengthD, 0⟩) ⟨lengthD, 0⟩).internal ≠
      (⟨lengthD, 1⟩ : Quantity).internal := by
  constructor
  · show (1 : ℝ) * 0 / 0 = 0
    norm_num
  · show (1 : ℝ) * 0 / 0 ≠ 1
    norm_num

/-- C8 amended: for any quantities a and b of arbitrary dimensions with
b.internal() nonzero, (a * b) / b has exactly the exponent vector of a (so the
types are isomorphic) and, in the real-valued model of doubles, internal value
exactly a.internal(). -/
theorem c8_amended_mul_div_roundtrip (a b : Quantity) (hb : b.internal ≠ 0) :
    (qdiv (qmul a b) b).dims = a.dims ∧
    (qdiv (qmul a b) b).internal = a.internal := by
  constructor
  · show Dims.sub (Dims.add a.dims b.dims) b.dims = a.dims
    obtain ⟨⟨m1, l1, t1, c1, a1, te1, lu1, mo1⟩, v1⟩ := a
    obtain ⟨⟨m2, l2, t2, c2, a2, te2, lu2, mo2⟩, v2⟩ := b
    simp [Dims.add, Dims.sub]
  · exact mul_div_cancel_right₀ a.internal hb

/-- C8 amended witness: the round trip at a = 2 meters, b = 4 seconds. -/
theorem c8_amended_mul_div_roundtrip_witness :
    (qdiv (qmul ⟨lengthD, 2⟩ ⟨timeD, 4⟩) ⟨timeD, 4⟩).dims = lengthD ∧
    (qdiv (qmul ⟨lengthD, 2⟩ ⟨timeD, 4⟩) ⟨timeD, 4⟩).internal = 2 :=
  c8_amended_mul_div_roundtrip ⟨lengthD, 2⟩ ⟨timeD, 4⟩ (by norm_num)

/-- C9 counterexample: for the negative-valued quantity of internal value -1
and n = 2, root 2 (pow 2 q) has internal value 1 (the square maps -1 to 1 and
the square root keeps 1), not -1, so the claimed numeric round trip fails. -/
theorem c9_counterexample_negative_base :
    (units.root 2 (units.pow 2 ⟨lengthD, -1⟩)).internal = 1 ∧
    (1 : ℝ) ≠ (⟨lengthD, -1⟩ : Quantity).internal := by
  constructor
  · show ((-1 : ℝ) ^ (2 : ℤ)) ^ (1 / ((2 : ℤ) : ℝ)) = 1
    have h1 : ((-1 : ℝ) ^ (2 : ℤ)) = 1 := by norm_num
    rw [h1, Real.one_rpow]
  · show (1 : ℝ) ≠ -1
    norm_num

/-- C9 amended: for every integer n strictly positive and every quantity q
with nonnegative internal value, root n (pow n q) has exactly the exponent
vector of q (the rational exponents scale by n and divide back) and internal
value exactly q.internal() in the real-valued model. -/
theorem c9_amended_root_pow_roundtrip (n : ℤ) (q : Quantity) (hn : 0 < n)
    (hq : 0 ≤ q.internal) :
    (units.root n (units.pow n q)).dims = q.dims ∧
    (units.root n (units.pow n q)).internal = q.internal := by
  have hnQ : (n : ℚ) ≠ 0 := Int.cast_ne_zero.mpr (ne_of_gt hn)
  have hnR : (n : ℝ) ≠ 0 := Int.cast_ne_zero.mpr (ne_of_gt hn)
  constructor
  · show Dims.root (Dims.exp q.dims (n : ℚ)) (n : ℚ) = q.dims
    obtain ⟨⟨m1, l1, t1, c1, a1, te1, lu1, mo1⟩, v1⟩ := q
    simp only [Dims.exp, Dims.root, Dims.mk.injEq]
    exact ⟨mul_div_cancel_right₀ _ hnQ, mul_div_cancel_right₀ _ hnQ,
      mul_div_cancel_right₀ _ hnQ, mul_div_cancel_right₀ _ hnQ,
      mul_div_cancel_right₀ _ hnQ, mul_div_cancel_right₀ _ hnQ,
      mul_div_cancel_right₀ _ hnQ, mul_div_cancel_right₀ _ hnQ⟩
  · show (q.internal ^ n) ^ (1 / (n : ℝ)) = q.internal
    rw [← Real.rpow_intCast q.internal n, ← Real.rpow_mul hq,
      mul_one_div_cancel hnR, Real.rpow_one]

/-- C9 amended witness: the round trip at n = 2 on a quantity with internal
value 4. -/
theorem c9_amended_root_pow_roundtrip_witness :
    (units.root 2 (units.pow 2 ⟨lengthD, 4⟩)).dims = lengthD ∧
    (units.root 2 (units.pow 2 ⟨lengthD, 4⟩)).internal = 4 :=
  c9_amended_root_pow_roundtrip 2 ⟨lengthD, 4⟩ (by norm_num) (by norm_num)
